import Mathlib

set_option maxHeartbeats 1000000

/-!
Shallow embedding of the `gtp` crate (GTP-U / GTP-prime header decoder):
`src/parser.rs`, `src/header.rs` and `src/info.rs`, translated function by
function.  Machine integers (`u8`, `u16`, `u32`, `usize`) are modelled as
`Nat`, with an explicit `% 2 ^ w` wherever the Rust arithmetic can wrap
(the `l * 4` multiplication in `ExtensionHeader::parse` is `u8`
arithmetic, modelled with release-build wrapping semantics `% 256`; debug
builds would panic there instead).  Rust `Result<T, ParseError>` becomes
the `ParseResult` inductive; a Rust panic (`unimplemented!()`, or
`byteorder`'s precondition panic) is modelled by an `Option` layer whose
`none` means "uncaught failure".
-/

namespace GtpCrate

/-- Error taxonomy of `src/parser.rs` (`enum ParseError`). -/
inductive ParseError
  | PrematureEnd
  | UnsupportedVersion
  | UnsupportedInformationElement (tag : Nat)
  | UnsupportedExtensionHeader (tag : Nat)
  | BadIpAddress
  | BadUdpPort (value : Nat)
  deriving DecidableEq, Repr

/-- Rust `Result<T, ParseError>` (`type ParseResult<T>` in `src/parser.rs`). -/
inductive ParseResult (α : Type)
  | ok (val : α)
  | error (e : ParseError)
  deriving DecidableEq, Repr

/-- The byte cursor of `src/parser.rs`: a borrowed byte buffer and a read
position.  Bytes are `Nat`s below 256. -/
structure Parser where
  bytes : List Nat
  pos : Nat
  deriving DecidableEq, Repr

/-- `Parser::parse` (`src/parser.rs:25-31`).  The Rust method mutates
`self.pos`; here the updated cursor is returned alongside the result, and
on failure the cursor is returned unchanged, exactly as the early
`return Err(...)` leaves `self.pos` untouched. -/
def Parser.parse (p : Parser) (len : Nat) : ParseResult (List Nat) × Parser :=
  if p.pos + len > p.bytes.length then (.error .PrematureEnd, p)
  else (.ok ((p.bytes.drop p.pos).take len), { p with pos := p.pos + len })

/-- `byteorder::LittleEndian::read_u16` on the first two bytes of a slice.
`byteorder` panics when the slice is shorter than 2; in this development it
is only ever applied to slices of length exactly 2 (the successful result
of `parse(2)`), where this total function agrees with it. -/
def LittleEndian.read_u16 (s : List Nat) : Nat :=
  s.getD 0 0 + 256 * s.getD 1 0

/-- `byteorder::LittleEndian::read_u32` on the first four bytes of a slice
(see `LittleEndian.read_u16` for the panic caveat; call sites that can
reach it with a short slice keep the `Option` layer explicitly). -/
def LittleEndian.read_u32 (s : List Nat) : Nat :=
  s.getD 0 0 + 256 * s.getD 1 0 + 65536 * s.getD 2 0 + 16777216 * s.getD 3 0

/-- `Parser::parse_u8` (`src/parser.rs:33-35`): `self.parse(1).map(|r| r[0])`. -/
def Parser.parse_u8 (p : Parser) : ParseResult (Nat × Parser) :=
  match p.parse 1 with
  | (.error e, _) => .error e
  | (.ok s, p1) => .ok (s.getD 0 0, p1)

/-- `Parser::parse_u16` (`src/parser.rs:37-39`). -/
def Parser.parse_u16 (p : Parser) : ParseResult (Nat × Parser) :=
  match p.parse 2 with
  | (.error e, _) => .error e
  | (.ok s, p1) => .ok (LittleEndian.read_u16 s, p1)

/-- `Parser::parse_u32` (`src/parser.rs:41-43`). -/
def Parser.parse_u32 (p : Parser) : ParseResult (Nat × Parser) :=
  match p.parse 4 with
  | (.error e, _) => .error e
  | (.ok s, p1) => .ok (LittleEndian.read_u32 s, p1)

/-- `struct Version(u8)` of `src/header.rs`. -/
structure Version where
  val : Nat
  deriving DecidableEq, Repr

/-- `Version::parse` (`src/header.rs:49-51`): `Ok(Version(b >> 5))`. -/
def Version.parse (b : Nat) : ParseResult Version :=
  .ok ⟨b >>> 5⟩

/-- `enum Protocol` of `src/header.rs`. -/
inductive Protocol
  | Gtp
  | GtpPrime
  deriving DecidableEq, Repr

/-- `Protocol::parse` (`src/header.rs:61-66`): `match b & 0b00100000`. -/
def Protocol.parse (b : Nat) : ParseResult Protocol :=
  match b &&& 32 with
  | 0 => .ok .GtpPrime
  | _ => .ok .Gtp

/-- `enum Flag` of `src/header.rs`. -/
inductive Flag
  | NPduNumber
  | SequenceNumber
  | ExtensionHeader
  deriving DecidableEq, BEq, Repr

/-- `Flag::has_npdu_number` (`src/header.rs:124-126`): `b & 0b00000001 != 0`. -/
def Flag.has_npdu_number (b : Nat) : Bool :=
  b &&& 1 != 0

/-- `Flag::has_sequence_number` (`src/header.rs:128-130`): `b & 0b00000010 != 0`. -/
def Flag.has_sequence_number (b : Nat) : Bool :=
  b &&& 2 != 0

/-- `Flag::has_extension_header` (`src/header.rs:132-134`): `b & 0b00000100 != 0`. -/
def Flag.has_extension_header (b : Nat) : Bool :=
  b &&& 4 != 0

/-- `struct Flags(HashSet<Flag>)` of `src/header.rs`.  The hash set is
modelled by the list of its elements; only membership is ever observed. -/
structure Flags where
  elems : List Flag
  deriving DecidableEq, Repr

/-- `Flags::contains` (`src/header.rs:111-113`). -/
def Flags.contains (fl : Flags) (flag : Flag) : Bool :=
  fl.elems.contains flag

/-- `Flags::parse` (`src/header.rs:73-79`): the three conditional
`HashSet::insert`s, in source order (the three flags are distinct values,
so insertion order only fixes the list representation, never membership). -/
def Flags.parse (b : Nat) : ParseResult Flags :=
  let r0 : List Flag := []
  let r1 := if Flag.has_npdu_number b then r0 ++ [Flag.NPduNumber] else r0
  let r2 := if Flag.has_sequence_number b then r1 ++ [Flag.SequenceNumber] else r1
  let r3 := if Flag.has_extension_header b then r2 ++ [Flag.ExtensionHeader] else r2
  .ok ⟨r3⟩

/-- `struct Length(u16)` of `src/header.rs`. -/
structure Length where
  val : Nat
  deriving DecidableEq, Repr

/-- `Length::parse` (`src/header.rs:147-149`). -/
def Length.parse (p : Parser) : ParseResult (Length × Parser) :=
  match p.parse_u16 with
  | .error e => .error e
  | .ok (v, p1) => .ok (⟨v⟩, p1)

/-- `struct TunnelEid(u32)` of `src/header.rs`. -/
structure TunnelEid where
  val : Nat
  deriving DecidableEq, Repr

/-- `TunnelEid::parse` (`src/header.rs:156-158`). -/
def TunnelEid.parse (p : Parser) : ParseResult (TunnelEid × Parser) :=
  match p.parse_u32 with
  | .error e => .error e
  | .ok (v, p1) => .ok (⟨v⟩, p1)

/-- `struct SequenceNumber(u16)` of `src/header.rs`. -/
structure SequenceNumber where
  val : Nat
  deriving DecidableEq, Repr

/-- `SequenceNumber::parse` (`src/header.rs:165-167`). -/
def SequenceNumber.parse (p : Parser) : ParseResult (SequenceNumber × Parser) :=
  match p.parse_u16 with
  | .error e => .error e
  | .ok (v, p1) => .ok (⟨v⟩, p1)

/-- `struct NPduNumber(u8)` of `src/header.rs`. -/
structure NPduNumber where
  val : Nat
  deriving DecidableEq, Repr

/-- `NPduNumber::parse` (`src/header.rs:174-176`). -/
def NPduNumber.parse (p : Parser) : ParseResult (NPduNumber × Parser) :=
  match p.parse_u8 with
  | .error e => .error e
  | .ok (v, p1) => .ok (⟨v⟩, p1)

/-- `enum ExtHeaderType` of `src/header.rs`. -/
inductive ExtHeaderType
  | EndReached
  | MbmsSupport
  | MsInfoChangeReporting
  | UdpPort
  | PdcpPdu
  | SuspendRequest
  | SuspendResponse
  deriving DecidableEq, Repr

/-- `ExtHeaderType::parse` (`src/header.rs:191-203`): read one tag byte and
dispatch on the seven known values, any other value is
`UnsupportedExtensionHeader(t)`. -/
def ExtHeaderType.parse (p : Parser) : ParseResult (ExtHeaderType × Parser) :=
  match p.parse_u8 with
  | .error e => .error e
  | .ok (t, p1) =>
    match t with
    | 0 => .ok (.EndReached, p1)
    | 1 => .ok (.MbmsSupport, p1)
    | 2 => .ok (.MsInfoChangeReporting, p1)
    | 64 => .ok (.UdpPort, p1)
    | 192 => .ok (.PdcpPdu, p1)
    | 193 => .ok (.SuspendRequest, p1)
    | 194 => .ok (.SuspendResponse, p1)
    | _ => .error (.UnsupportedExtensionHeader t)

/-- `struct ExtensionHeader` of `src/header.rs`: a type tag plus the raw
content slice. -/
structure ExtensionHeader where
  kind : ExtHeaderType
  content : List Nat
  deriving DecidableEq, Repr

/-- `ExtensionHeader::parse` (`src/header.rs:220-232`), with an explicit
fuel argument standing in for the Rust recursion (fuel exhaustion yields
`PrematureEnd`, and `extension_chain_termination` shows any fuel above the
remaining byte count gives the same, fuel-independent result).  Each step:
read one length byte `l`, take `l * 4` content bytes — a `u8`
multiplication, so it wraps modulo 256 (release semantics; debug builds
panic for `l ≥ 64`) — read the next tag, push the record, and recurse
unless the next tag is the `EndReached` sentinel. -/
def ExtensionHeader.parseFuel :
    Nat → ExtHeaderType → List ExtensionHeader → Parser →
    ParseResult (List ExtensionHeader × Parser)
  | 0, _, _, _ => .error .PrematureEnd
  | fuel + 1, kind, res, p =>
    match p.parse_u8 with
    | .error e => .error e
    | .ok (l, p1) =>
      match p1.parse ((l * 4) % 256) with
      | (.error e, _) => .error e
      | (.ok content, p2) =>
        match ExtHeaderType.parse p2 with
        | .error e => .error e
        | .ok (next, p3) =>
          let res1 := res ++ [ExtensionHeader.mk kind content]
          if next ≠ ExtHeaderType.EndReached then
            ExtensionHeader.parseFuel fuel next res1 p3
          else
            .ok (res1, p3)

/-- `ExtensionHeader::parse` at its canonical fuel: one more than the
number of bytes remaining in the buffer, which is always sufficient
(each step consumes at least two bytes). -/
def ExtensionHeader.parse (p : Parser) (kind : ExtHeaderType)
    (res : List ExtensionHeader) : ParseResult (List ExtensionHeader × Parser) :=
  ExtensionHeader.parseFuel (p.bytes.length - p.pos + 1) kind res p

/-- `Flags::parse_seq_num` (`src/header.rs:81-88`). -/
def Flags.parse_seq_num (fl : Flags) (p : Parser) :
    ParseResult (Option SequenceNumber × Parser) :=
  if fl.contains .SequenceNumber then
    match SequenceNumber.parse p with
    | .error e => .error e
    | .ok (s, p1) => .ok (some s, p1)
  else .ok (none, p)

/-- `Flags::parse_npdu` (`src/header.rs:90-97`). -/
def Flags.parse_npdu (fl : Flags) (p : Parser) :
    ParseResult (Option NPduNumber × Parser) :=
  if fl.contains .NPduNumber then
    match NPduNumber.parse p with
    | .error e => .error e
    | .ok (s, p1) => .ok (some s, p1)
  else .ok (none, p)

/-- `Flags::parse_ext_hdrs` (`src/header.rs:99-109`): when the extension
flag is set, read the first tag and hand it to `ExtensionHeader::parse`
with an empty accumulator; otherwise the chain is empty. -/
def Flags.parse_ext_hdrs (fl : Flags) (p : Parser) :
    ParseResult (List ExtensionHeader × Parser) :=
  if fl.contains .ExtensionHeader then
    match ExtHeaderType.parse p with
    | .error e => .error e
    | .ok (kind, p1) => ExtensionHeader.parse p1 kind []
  else .ok ([], p)

/-- `struct Gtp` of `src/header.rs`. -/
structure Gtp where
  version : Version
  protocol : Protocol
  flags : Flags
  length : Length
  teid : TunnelEid
  seq_num : Option SequenceNumber
  npdu_num : Option NPduNumber
  ext_hdrs : List ExtensionHeader
  deriving DecidableEq, Repr

/-- `Gtp::parse` (`src/header.rs:22-42`): the top octet feeds version,
protocol and flags; then length, tunnel endpoint id, the flag-gated
optional fields, and the flag-gated extension chain. -/
def Gtp.parse (p : Parser) : ParseResult (Gtp × Parser) :=
  match p.parse_u8 with
  | .error e => .error e
  | .ok (top, p1) =>
    match Version.parse top with
    | .error e => .error e
    | .ok ver =>
      match Protocol.parse top with
      | .error e => .error e
      | .ok proto =>
        match Flags.parse top with
        | .error e => .error e
        | .ok flags =>
          match Length.parse p1 with
          | .error e => .error e
          | .ok (len, p2) =>
            match TunnelEid.parse p2 with
            | .error e => .error e
            | .ok (teid, p3) =>
              match flags.parse_seq_num p3 with
              | .error e => .error e
              | .ok (seq_num, p4) =>
                match flags.parse_npdu p4 with
                | .error e => .error e
                | .ok (npdu_num, p5) =>
                  match flags.parse_ext_hdrs p5 with
                  | .error e => .error e
                  | .ok (ext_hdrs, p6) =>
                    .ok ({ version := ver, protocol := proto, flags := flags,
                           length := len, teid := teid, seq_num := seq_num,
                           npdu_num := npdu_num, ext_hdrs := ext_hdrs }, p6)

/-- `struct RestartCounter(u8)` of `src/info.rs`. -/
structure RestartCounter where
  val : Nat
  deriving DecidableEq, Repr

/-- `RestartCounter::parse` (`src/info.rs:53-55`). -/
def RestartCounter.parse (p : Parser) : ParseResult (RestartCounter × Parser) :=
  match p.parse_u8 with
  | .error e => .error e
  | .ok (v, p1) => .ok (⟨v⟩, p1)

/-- `struct TeiData(u32)` of `src/info.rs`. -/
structure TeiData where
  val : Nat
  deriving DecidableEq, Repr

/-- `TeiData::parse` (`src/info.rs:61-63`). -/
def TeiData.parse (p : Parser) : ParseResult (TeiData × Parser) :=
  match p.parse_u32 with
  | .error e => .error e
  | .ok (v, p1) => .ok (⟨v⟩, p1)

/-- `enum Comprehension` of `src/info.rs`. -/
inductive Comprehension
  | Optional
  | Discard
  | Receiver
  | Unconditional
  deriving DecidableEq, Repr

/-- `Comprehension::parse` (`src/info.rs:131-138`): dispatch on the two top
bits of the type octet. -/
def Comprehension.parse (b : Nat) : ParseResult Comprehension :=
  .ok (match b &&& 128 != 0, b &&& 64 != 0 with
    | false, false => .Optional
    | false, true => .Discard
    | true, false => .Receiver
    | true, true => .Unconditional)

/-- `enum ExtType` of `src/info.rs`. -/
inductive ExtType
  | UdpPort (v : Nat)
  | PdcpPduNumber (v : Nat)
  deriving DecidableEq, Repr

/-- `ExtType::parse_udp_port` (`src/info.rs:112-119`): read `len * 4` bytes
(`len as usize * 4`, widened before the multiply, so no wrap here), decode
them little-endian — `byteorder::read_u32` panics when the slice is shorter
than 4 bytes, which the `none` result models — and reject the port when it
exceeds `2 ^ 16`, which in Rust is the XOR `2 ^^^ 16 = 18`, not two to the
sixteenth.  On success the port is truncated `as u16` (`% 65536`). -/
def ExtType.parse_udp_port (len : Nat) (p : Parser) :
    Option (ParseResult (ExtType × Parser)) :=
  match p.parse (len * 4) with
  | (.error e, _) => some (.error e)
  | (.ok s, p1) =>
    if s.length < 4 then none
    else
      let port := LittleEndian.read_u32 s
      if port > 2 ^^^ 16 then some (.error (.BadUdpPort port))
      else some (.ok (.UdpPort (port % 65536), p1))

/-- `ExtType::parse` (`src/info.rs:103-110`): the tag-0 arm of the Rust
match is `unimplemented!()`, an uncaught panic, modelled by `none`; every
other unknown tag is the typed `UnsupportedExtensionHeader(t)` error. -/
def ExtType.parse (t len : Nat) (p : Parser) :
    Option (ParseResult (ExtType × Parser)) :=
  match t with
  | 0 => none
  | 64 => ExtType.parse_udp_port len p
  | 192 =>
    match p.parse_u32 with
    | .error e => some (.error e)
    | .ok (v, p1) => some (.ok (.PdcpPduNumber v, p1))
  | _ => some (.error (.UnsupportedExtensionHeader t))

/-- `struct ExtHeader` of `src/info.rs`. -/
structure ExtHeader where
  comprehension : Comprehension
  header : ExtType
  deriving DecidableEq, Repr

/-- `ExtHeader::parse` (`src/info.rs:82-93`); the `Option` layer propagates
the possible `unimplemented!()` panic of `ExtType::parse`. -/
def ExtHeader.parse (t : Nat) (p : Parser) :
    Option (ParseResult (ExtHeader × Parser)) :=
  match Comprehension.parse t with
  | .error e => some (.error e)
  | .ok compr =>
    match p.parse_u8 with
    | .error e => some (.error e)
    | .ok (len, p1) =>
      match ExtType.parse t len p1 with
      | none => none
      | some (.error e) => some (.error e)
      | some (.ok (etype, p2)) =>
        some (.ok ({ comprehension := compr, header := etype }, p2))

/-- `enum InetAddr` of `src/info.rs`. -/
inductive InetAddr
  | V4 (v : Nat)
  | V6 (content : List Nat)
  deriving DecidableEq, Repr

/-- `InetAddr::parse_v4` (`src/info.rs:155-157`). -/
def InetAddr.parse_v4 (p : Parser) : ParseResult (InetAddr × Parser) :=
  match p.parse 4 with
  | (.error e, _) => .error e
  | (.ok s, p1) => .ok (.V4 (LittleEndian.read_u32 s), p1)

/-- `InetAddr::parse_v6` (`src/info.rs:159-161`). -/
def InetAddr.parse_v6 (p : Parser) : ParseResult (InetAddr × Parser) :=
  match p.parse 16 with
  | (.error e, _) => .error e
  | (.ok s, p1) => .ok (.V6 s, p1)

/-- `InetAddr::parse` (`src/info.rs:147-153`): length 4 is IPv4, length 16
is IPv6, anything else is `BadIpAddress`. -/
def InetAddr.parse (len : Nat) (p : Parser) : ParseResult (InetAddr × Parser) :=
  match len with
  | 4 => InetAddr.parse_v4 p
  | 16 => InetAddr.parse_v6 p
  | _ => .error .BadIpAddress

/-- `enum InfoElement` of `src/info.rs`. -/
inductive InfoElement
  | Recovery (r : RestartCounter)
  | TeiData (t : TeiData)
  | GtpPeerAddr (a : InetAddr)
  | ExtHeader (e : ExtHeader)
  deriving DecidableEq, Repr

/-- `InfoElement::parse_fixed` (`src/info.rs:33-39`). -/
def InfoElement.parse_fixed (ie_type : Nat) (p : Parser) :
    ParseResult (InfoElement × Parser) :=
  match ie_type with
  | 14 =>
    match RestartCounter.parse p with
    | .error e => .error e
    | .ok (r, p1) => .ok (.Recovery r, p1)
  | 16 =>
    match TeiData.parse p with
    | .error e => .error e
    | .ok (t, p1) => .ok (.TeiData t, p1)
  | _ => .error (.UnsupportedInformationElement ie_type)

/-- `InfoElement::parse_variable` (`src/info.rs:41-47`): read the length
byte, then dispatch on the (already masked) tag; only the literal 133
selects the peer address. -/
def InfoElement.parse_variable (ie_type : Nat) (p : Parser) :
    ParseResult (InfoElement × Parser) :=
  match p.parse_u8 with
  | .error e => .error e
  | .ok (len, p1) =>
    match ie_type with
    | 133 =>
      match InetAddr.parse len p1 with
      | .error e => .error e
      | .ok (a, p2) => .ok (.GtpPeerAddr a, p2)
    | _ => .error (.UnsupportedInformationElement ie_type)

/-- `InfoElement::parse` (`src/info.rs:24-31`): read the tag byte and test
`ie_type & 0b1000000` — the literal in the source is seven binary digits,
i.e. bit 6, value 64, not the high bit — then dispatch to the fixed table
with the raw tag or to the variable table with the tag masked by
`0b01111111`. -/
def InfoElement.parse (p : Parser) : ParseResult (InfoElement × Parser) :=
  match p.parse_u8 with
  | .error e => .error e
  | .ok (ie_type, p1) =>
    if ie_type &&& 64 == 0 then InfoElement.parse_fixed ie_type p1
    else InfoElement.parse_variable (ie_type &&& 127) p1

/-! Helper lemmas about the cursor primitives. -/

/-- A successful `Parser::parse` returns the slice of the next `n` bytes and
advances the position by exactly `n`, staying within the buffer. -/
theorem Parser.parse_ok_spec (p : Parser) (n : Nat) (s : List Nat) (p1 : Parser)
    (h : p.parse n = (.ok s, p1)) :
    p1.bytes = p.bytes ∧ p1.pos = p.pos + n ∧ p1.pos ≤ p.bytes.length ∧
    s = (p.bytes.drop p.pos).take n ∧ s.length = n := by
  unfold Parser.parse at h
  split at h
  · simp at h
  next hc =>
    rw [Prod.mk.injEq] at h
    obtain ⟨hs, hp1⟩ := h
    injection hs with hs
    subst hp1
    refine ⟨rfl, rfl, by simpa using Nat.le_of_not_lt hc, hs.symm, ?_⟩
    subst hs
    simp only [List.length_take, List.length_drop]
    omega

/-- `Parser::parse` fails only with `PrematureEnd`, leaving the cursor
unchanged. -/
theorem Parser.parse_error_premature (p : Parser) (n : Nat) (e : ParseError) (p1 : Parser)
    (h : p.parse n = (.error e, p1)) :
    e = .PrematureEnd ∧ p1 = p := by
  unfold Parser.parse at h
  split at h
  · rw [Prod.mk.injEq] at h
    obtain ⟨hs, hp1⟩ := h
    injection hs with hs
    exact ⟨hs.symm, hp1.symm⟩
  · simp at h

/-- A successful `Parser::parse_u8` reads exactly the byte at the current
position and advances by one. -/
theorem Parser.parse_u8_ok (p : Parser) (v : Nat) (p1 : Parser)
    (h : p.parse_u8 = .ok (v, p1)) :
    p1.bytes = p.bytes ∧ p1.pos = p.pos + 1 ∧ p1.pos ≤ p.bytes.length ∧
    v = p.bytes.getD p.pos 0 := by
  unfold Parser.parse_u8 at h
  cases hp : p.parse 1 with
  | mk r q =>
    rw [hp] at h
    cases r with
    | error e => exact ParseResult.noConfusion h
    | ok s =>
      obtain ⟨hb, hpos, hle, hs, hlen⟩ := Parser.parse_ok_spec p 1 s q hp
      injection h with h
      rw [Prod.mk.injEq] at h
      obtain ⟨hv, hq⟩ := h
      subst hq
      refine ⟨hb, hpos, hle, ?_⟩
      subst hs hv
      have hlt : p.pos < p.bytes.length := by omega
      rw [List.drop_eq_getElem_cons hlt]
      simp [List.getD, List.getElem?_eq_getElem hlt]

/-- `Parser::parse_u8` fails only with `PrematureEnd`. -/
theorem Parser.parse_u8_error (p : Parser) (e : ParseError)
    (h : p.parse_u8 = .error e) : e = .PrematureEnd := by
  unfold Parser.parse_u8 at h
  cases hp : p.parse 1 with
  | mk r q =>
    rw [hp] at h
    cases r with
    | error e1 =>
      injection h with h
      subst h
      exact (Parser.parse_error_premature p 1 _ q hp).1
    | ok s => exact ParseResult.noConfusion h

/-- A successful `ExtHeaderType::parse` consumes exactly the one tag byte. -/
theorem ExtHeaderType.parse_ok_step (p : Parser) (k : ExtHeaderType) (p1 : Parser)
    (h : ExtHeaderType.parse p = .ok (k, p1)) :
    p1.bytes = p.bytes ∧ p1.pos = p.pos + 1 ∧ p1.pos ≤ p.bytes.length := by
  unfold ExtHeaderType.parse at h
  split at h
  next e heq => exact ParseResult.noConfusion h
  next t q heq =>
    obtain ⟨hb, hpos, hle, -⟩ := Parser.parse_u8_ok p t q heq
    split at h <;>
      first
      | exact ParseResult.noConfusion h
      | · injection h with h
          rw [Prod.mk.injEq] at h
          obtain ⟨-, hq⟩ := h
          subst hq
          exact ⟨hb, hpos, hle⟩

/-- `ExtHeaderType::parse` fails only with `PrematureEnd` (short buffer) or
`UnsupportedExtensionHeader` (unknown tag byte). -/
theorem ExtHeaderType.parse_error_kinds (p : Parser) (e : ParseError)
    (h : ExtHeaderType.parse p = .error e) :
    e = .PrematureEnd ∨ ∃ t, e = .UnsupportedExtensionHeader t := by
  unfold ExtHeaderType.parse at h
  split at h
  next e1 heq =>
    injection h with h
    subst h
    exact Or.inl (Parser.parse_u8_error p e1 heq)
  next t q heq =>
    split at h <;>
      first
      | exact ParseResult.noConfusion h
      | · injection h with h
          exact Or.inr ⟨_, h.symm⟩

/-- Success facts for the extension-chain walk: the accumulator grows by at
least one record, the buffer is untouched, at least two bytes are consumed
per appended record, and the final position stays inside the buffer. -/
theorem ExtensionHeader.parseFuel_ok_facts (fuel : Nat) :
    ∀ (kind : ExtHeaderType) (res : List ExtensionHeader) (p : Parser)
      (out : List ExtensionHeader) (p1 : Parser),
      ExtensionHeader.parseFuel fuel kind res p = .ok (out, p1) →
      res.length < out.length ∧ p1.bytes = p.bytes ∧
      p.pos + 2 * (out.length - res.length) ≤ p1.pos ∧
      p1.pos ≤ p.bytes.length := by
  induction fuel with
  | zero =>
    intro kind res p out p1 h
    exact ParseResult.noConfusion h
  | succ f ih =>
    intro kind res p out p1 h
    unfold ExtensionHeader.parseFuel at h
    split at h
    next e heq => exact ParseResult.noConfusion h
    next l q1 heq =>
      obtain ⟨hb1, hp1, hle1, -⟩ := Parser.parse_u8_ok p l q1 heq
      split at h
      next e q heq2 => exact ParseResult.noConfusion h
      next content q2 heq2 =>
        obtain ⟨hb2, hp2, hle2, -, -⟩ :=
          Parser.parse_ok_spec q1 ((l * 4) % 256) content q2 heq2
        split at h
        next e heq3 => exact ParseResult.noConfusion h
        next next q3 heq3 =>
          obtain ⟨hb3, hp3, hle3⟩ := ExtHeaderType.parse_ok_step q2 next q3 heq3
          split at h
          · -- recursive case: the next tag is not the sentinel
            obtain ⟨ih1, ih2, ih3, ih4⟩ := ih next _ q3 out p1 h
            rw [List.length_append] at ih1 ih3
            rw [hb3, hb2, hb1] at ih2 ih4
            refine ⟨by simpa using Nat.lt_of_le_of_lt (by omega) ih1, ih2, ?_, ih4⟩
            simp only [List.length_singleton] at ih1 ih3
            omega
          · -- the next tag is the sentinel: stop here
            injection h with h
            rw [Prod.mk.injEq] at h
            obtain ⟨hout, hq⟩ := h
            subst hq
            rw [← hout]
            rw [hb2, hb1] at hle3
            simp only [List.length_append, List.length_singleton]
            exact ⟨by omega, by rw [hb3, hb2, hb1], by omega, hle3⟩

/-- Fuel-independence of the extension-chain walk: any fuel strictly above
the number of remaining bytes yields the same result, because every
recursive step consumes at least two bytes. -/
theorem ExtensionHeader.parseFuel_stable (f : Nat) :
    ∀ (g : Nat) (kind : ExtHeaderType) (res : List ExtensionHeader) (p : Parser),
      p.bytes.length - p.pos < f → p.bytes.length - p.pos < g →
      ExtensionHeader.parseFuel f kind res p =
        ExtensionHeader.parseFuel g kind res p := by
  induction f with
  | zero =>
    intro g kind res p hf hg
    exact absurd hf (by omega)
  | succ f ih =>
    intro g kind res p hf hg
    obtain ⟨g1, rfl⟩ : ∃ g1, g = g1 + 1 := ⟨g - 1, by omega⟩
    show ExtensionHeader.parseFuel (f + 1) kind res p =
      ExtensionHeader.parseFuel (g1 + 1) kind res p
    unfold ExtensionHeader.parseFuel
    cases hu : p.parse_u8 with
    | error e => simp only [hu]
    | ok lv =>
      obtain ⟨l, q1⟩ := lv
      obtain ⟨hb1, hp1, hle1, -⟩ := Parser.parse_u8_ok p l q1 hu
      simp only [hu]
      cases hc : q1.parse ((l * 4) % 256) with
      | mk r q2 =>
        cases r with
        | error e => simp only [hc]
        | ok content =>
          obtain ⟨hb2, hp2, hle2, -, -⟩ :=
            Parser.parse_ok_spec q1 ((l * 4) % 256) content q2 hc
          simp only [hc]
          cases he : ExtHeaderType.parse q2 with
          | error e => simp only [he]
          | ok nv =>
            obtain ⟨next, q3⟩ := nv
            obtain ⟨hb3, hp3, hle3⟩ := ExtHeaderType.parse_ok_step q2 next q3 he
            simp only [he]
            by_cases hnx : next = ExtHeaderType.EndReached
            · simp [hnx]
            · rw [if_pos hnx, if_pos hnx]
              apply ih
              · rw [hb2, hb1] at hle3
                rw [hb3, hb2, hb1]
                omega
              · rw [hb2, hb1] at hle3
                rw [hb3, hb2, hb1]
                omega

/-- The extension-chain walk fails only with `PrematureEnd` (the buffer ran
out before the sentinel) or `UnsupportedExtensionHeader` (an unknown tag
byte was read). -/
theorem ExtensionHeader.parseFuel_error_kinds (fuel : Nat) :
    ∀ (kind : ExtHeaderType) (res : List ExtensionHeader) (p : Parser)
      (e : ParseError),
      ExtensionHeader.parseFuel fuel kind res p = .error e →
      e = .PrematureEnd ∨ ∃ t, e = .UnsupportedExtensionHeader t := by
  induction fuel with
  | zero =>
    intro kind res p e h
    injection h with h
    exact Or.inl h.symm
  | succ f ih =>
    intro kind res p e h
    unfold ExtensionHeader.parseFuel at h
    split at h
    next e1 heq =>
      injection h with h
      subst h
      exact Or.inl (Parser.parse_u8_error p e1 heq)
    next l q1 heq =>
      split at h
      next e1 q heq2 =>
        injection h with h
        subst h
        exact Or.inl (Parser.parse_error_premature q1 _ e1 q heq2).1
      next content q2 heq2 =>
        split at h
        next e1 heq3 =>
          injection h with h
          subst h
          exact ExtHeaderType.parse_error_kinds q2 e1 heq3
        next next q3 heq3 =>
          split at h
          · exact ih next _ q3 e h
          · exact ParseResult.noConfusion h

/-- `Flags::parse` decodes exactly the three independent flag bits: the
membership of each `Flag` in the parsed set equals the test of its own bit,
bit 0 for the N-PDU number, bit 1 for the sequence number, bit 2 for the
extension chain. -/
theorem Flags.parse_contains (b : Nat) (fl : Flags) (h : Flags.parse b = .ok fl) :
    fl.contains .SequenceNumber = (b &&& 2 != 0) ∧
    fl.contains .NPduNumber = (b &&& 1 != 0) ∧
    fl.contains .ExtensionHeader = (b &&& 4 != 0) := by
  unfold Flags.parse at h
  injection h with h
  subst h
  unfold Flags.contains Flag.has_npdu_number Flag.has_sequence_number
    Flag.has_extension_header
  cases h1 : (b &&& 1 != 0) <;> cases h2 : (b &&& 2 != 0) <;>
    cases h3 : (b &&& 4 != 0) <;>
    simp [Flag.has_npdu_number, Flag.has_sequence_number,
      Flag.has_extension_header, h1, h2, h3, List.contains] <;> decide

/-- A successful `Flags::parse_seq_num` yields `Some` exactly when the
sequence-number flag is in the set. -/
theorem Flags.parse_seq_num_ok (fl : Flags) (p p1 : Parser)
    (o : Option SequenceNumber) (h : fl.parse_seq_num p = .ok (o, p1)) :
    o.isSome = fl.contains .SequenceNumber := by
  unfold Flags.parse_seq_num at h
  split at h
  next hc =>
    split at h
    · exact ParseResult.noConfusion h
    next s q heq =>
      injection h with h
      rw [Prod.mk.injEq] at h
      rw [← h.1, hc]
      rfl
  next hc =>
    injection h with h
    rw [Prod.mk.injEq] at h
    rw [← h.1, Bool.eq_false_iff.mpr hc]
    rfl

/-- A successful `Flags::parse_npdu` yields `Some` exactly when the
N-PDU-number flag is in the set. -/
theorem Flags.parse_npdu_ok (fl : Flags) (p p1 : Parser)
    (o : Option NPduNumber) (h : fl.parse_npdu p = .ok (o, p1)) :
    o.isSome = fl.contains .NPduNumber := by
  unfold Flags.parse_npdu at h
  split at h
  next hc =>
    split at h
    · exact ParseResult.noConfusion h
    next s q heq =>
      injection h with h
      rw [Prod.mk.injEq] at h
      rw [← h.1, hc]
      rfl
  next hc =>
    injection h with h
    rw [Prod.mk.injEq] at h
    rw [← h.1, Bool.eq_false_iff.mpr hc]
    rfl

/-- A successful `Flags::parse_ext_hdrs` yields a non-empty chain exactly
when the extension flag is in the set: with the flag clear the chain is
`[]`, and with the flag set `ExtensionHeader::parse` always appends at
least one record before returning. -/
theorem Flags.parse_ext_hdrs_ok (fl : Flags) (p p1 : Parser)
    (out : List ExtensionHeader) (h : fl.parse_ext_hdrs p = .ok (out, p1)) :
    (out ≠ [] ↔ fl.contains .ExtensionHeader = true) := by
  unfold Flags.parse_ext_hdrs at h
  split at h
  next hc =>
    split at h
    · exact ParseResult.noConfusion h
    next kind q heq =>
      obtain ⟨hlen, -, -, -⟩ :=
        ExtensionHeader.parseFuel_ok_facts _ kind [] q out p1 h
      simp only [List.length_nil] at hlen
      simp only [hc, iff_true]
      exact List.ne_nil_of_length_pos hlen
  next hc =>
    injection h with h
    rw [Prod.mk.injEq] at h
    rw [← h.1, Bool.eq_false_iff.mpr hc]
    simp

/-! Claim theorems. -/

/-- Claim C1 (counterexample).  Parsing the 7-byte buffer
`[0b00110000, 0,0, 0,0,0,1]` with `Gtp::parse` succeeds with version 1, no
flags, payload length 0, no optional fields and an empty chain — but the
tunnel endpoint identifier decodes to 16777216 (the byte 1 lands in the
most significant position, because `Parser::parse_u32` is little-endian),
not to 1 as the claim states. -/
theorem gtp_parse_spec_example_refuted :
    Gtp.parse ⟨[48, 0, 0, 0, 0, 0, 1], 0⟩ =
      .ok ({ version := ⟨1⟩, protocol := .Gtp, flags := ⟨[]⟩, length := ⟨0⟩,
             teid := ⟨16777216⟩, seq_num := none, npdu_num := none,
             ext_hdrs := [] }, ⟨[48, 0, 0, 0, 0, 0, 1], 7⟩) ∧
    (16777216 : Nat) ≠ 1 := by
  decide

/-- Claim C1 (amended).  On the spec's example buffer the parse succeeds
with version 1, no flags set, payload length 0, tunnel endpoint identifier
16777216, no sequence number, no N-PDU number and an empty extension
chain: the multi-byte fields are read least-significant-byte-first
(`byteorder::LittleEndian`), as the `u16` and `u32` reads show. -/
theorem gtp_parse_spec_example_little_endian :
    Gtp.parse ⟨[48, 0, 0, 0, 0, 0, 1], 0⟩ =
      .ok ({ version := ⟨1⟩, protocol := .Gtp, flags := ⟨[]⟩, length := ⟨0⟩,
             teid := ⟨16777216⟩, seq_num := none, npdu_num := none,
             ext_hdrs := [] }, ⟨[48, 0, 0, 0, 0, 0, 1], 7⟩) ∧
    Parser.parse_u32 ⟨[0, 0, 0, 1], 0⟩ = .ok (16777216, ⟨[0, 0, 0, 1], 4⟩) ∧
    Parser.parse_u16 ⟨[0, 1], 0⟩ = .ok (256, ⟨[0, 1], 2⟩) := by
  decide

/-- Claim C2 (code bug).  `Version::parse` is `b >> 5` and
`Protocol::parse` masks `0b00100000`: bit 5 (value 32 = 2^5) is consumed
by both.  Flipping only bit 5 of the first octet changes the parsed
version AND the parsed protocol discriminator, so the two bit ranges
overlap, contradicting the claimed disjointness. -/
theorem version_protocol_bit_overlap :
    (32 : Nat) = 2 ^ 5 ∧
    Version.parse 32 ≠ Version.parse 0 ∧
    Protocol.parse 32 ≠ Protocol.parse 0 := by
  decide

/-- Claim C5 (code bug).  With the extension flag set and the very first
type tag already the `EndReached` sentinel, `Flags::parse_ext_hdrs` still
pushes one record (of kind `EndReached`): the decoded chain has one
record where the claim requires zero. -/
theorem ext_chain_sentinel_first_record :
    Gtp.parse ⟨[52, 0, 0, 0, 0, 0, 0, 0, 0, 0], 0⟩ =
      .ok ({ version := ⟨1⟩, protocol := .Gtp, flags := ⟨[.ExtensionHeader]⟩,
             length := ⟨0⟩, teid := ⟨0⟩, seq_num := none, npdu_num := none,
             ext_hdrs := [⟨.EndReached, []⟩] }, ⟨[52, 0, 0, 0, 0, 0, 0, 0, 0, 0], 10⟩) ∧
    [(⟨.EndReached, []⟩ : ExtensionHeader)].length ≠ 0 := by
  decide

/-- Claim C6 (code bug).  The extension-record length is computed as
`l * 4` in `u8` arithmetic, so for the length byte 64 it wraps to 0
(release semantics; debug builds panic): on the 2-byte buffer `[64, 0]`
the decoder reads 0 content bytes and succeeds, instead of reading
64 × 4 = 256 content bytes as the claim requires. -/
theorem ext_chain_length_mul_overflow :
    ExtensionHeader.parse ⟨[64, 0], 0⟩ .UdpPort [] =
      .ok ([⟨.UdpPort, []⟩], ⟨[64, 0], 2⟩) ∧
    (64 * 4) % 256 = 0 ∧ ([] : List Nat).length ≠ 64 * 4 := by
  decide

/-- Claim C8 (code bug).  The tag-0 arm of `ExtType::parse` is
`unimplemented!()`: an uncaught panic (modelled by `none`), not the typed
`Unsupported*` error the claim requires of every unhandled branch. -/
theorem ext_type_parse_tag_zero_uncaught (len : Nat) (p : Parser) :
    ExtType.parse 0 len p = none :=
  rfl

/-- Claim C9 (code bug).  On a buffer whose first byte is the peer-address
tag 133 (high bit set), `InfoElement::parse` does NOT read the length byte
and dispatch to the peer-address decoder: the dispatch tests bit 6
(`0b1000000`, a seven-digit literal) instead of the high bit, so tag 133
falls into the fixed-length table and fails with
`UnsupportedInformationElement(133)`. -/
theorem info_element_peer_addr_unreachable :
    InfoElement.parse ⟨[133, 4, 1, 2, 3, 4], 0⟩ =
      .error (.UnsupportedInformationElement 133) ∧
    (133 : Nat) &&& 128 ≠ 0 := by
  decide

/-- Claim C10 (code bug).  `ExtType::parse_udp_port` rejects a port when
`port > 2^16` — but in Rust `^` is XOR, so the threshold is 18, not
65536: the decoded port 19, well inside the 16-bit range, is reported as
`BadUdpPort(19)` although the claim requires every value up to 65535 to
succeed. -/
theorem udp_port_xor_threshold :
    ExtType.parse_udp_port 1 ⟨[19, 0, 0, 0], 0⟩ =
      some (.error (.BadUdpPort 19)) ∧
    (19 : Nat) ≤ 65535 ∧ (2 ^^^ 16 : Nat) = 18 := by
  decide

/-- Claim C4.  For every in-bounds cursor state: when at least `n` bytes
remain, `Parser::parse n` returns exactly the next `n` bytes of the buffer
(a slice of length `n` starting at the current position) and advances the
position by exactly `n`; when fewer than `n` bytes remain it fails with
`PrematureEnd` and leaves the position unchanged. -/
theorem parser_parse_contract (bytes : List Nat) (pos n : Nat)
    (hpos : pos ≤ bytes.length) :
    (n ≤ bytes.length - pos →
      Parser.parse ⟨bytes, pos⟩ n =
        (.ok ((bytes.drop pos).take n), ⟨bytes, pos + n⟩) ∧
      ((bytes.drop pos).take n).length = n) ∧
    (bytes.length - pos < n →
      Parser.parse ⟨bytes, pos⟩ n = (.error .PrematureEnd, ⟨bytes, pos⟩)) := by
  constructor
  · intro hn
    constructor
    · unfold Parser.parse
      rw [if_neg (by simp only []; omega)]
    · simp only [List.length_take, List.length_drop]
      omega
  · intro hn
    unfold Parser.parse
    rw [if_pos (by simp only []; omega)]

/-- Claim C4, witness: a concrete successful read and a concrete failing
read obtained from `parser_parse_contract`. -/
theorem parser_parse_contract_witness :
    (Parser.parse ⟨[1, 2, 3], 1⟩ 2 =
        (.ok (([1, 2, 3].drop 1).take 2), ⟨[1, 2, 3], 3⟩) ∧
      (([1, 2, 3].drop 1).take 2).length = 2) ∧
    Parser.parse ⟨[1, 2, 3], 3⟩ 1 = (.error .PrematureEnd, ⟨[1, 2, 3], 3⟩) :=
  ⟨(parser_parse_contract [1, 2, 3] 1 2 (by decide)).1 (by decide),
   (parser_parse_contract [1, 2, 3] 3 1 (by decide)).2 (by decide)⟩

/-- Claim C3.  For every buffer on which `Gtp::parse` succeeds, the
sequence number is present in the result exactly when bit 1 of the first
octet is set, the N-PDU number exactly when bit 0 is set, and the
extension chain is non-empty exactly when bit 2 is set. -/
theorem gtp_parse_flag_fidelity (p p1 : Parser) (g : Gtp)
    (h : Gtp.parse p = .ok (g, p1)) :
    (g.seq_num.isSome = true ↔ p.bytes.getD p.pos 0 &&& 2 ≠ 0) ∧
    (g.npdu_num.isSome = true ↔ p.bytes.getD p.pos 0 &&& 1 ≠ 0) ∧
    (g.ext_hdrs ≠ [] ↔ p.bytes.getD p.pos 0 &&& 4 ≠ 0) := by
  unfold Gtp.parse at h
  split at h
  next e heq => exact ParseResult.noConfusion h
  next top q1 h1 =>
    split at h
    next e heq => exact ParseResult.noConfusion h
    next ver h2 =>
      split at h
      next e heq => exact ParseResult.noConfusion h
      next proto h3 =>
        split at h
        next e heq => exact ParseResult.noConfusion h
        next flags h4 =>
          split at h
          next e heq => exact ParseResult.noConfusion h
          next len q2 h5 =>
            split at h
            next e heq => exact ParseResult.noConfusion h
            next teid q3 h6 =>
              split at h
              next e heq => exact ParseResult.noConfusion h
              next seqn q4 h7 =>
                split at h
                next e heq => exact ParseResult.noConfusion h
                next npdun q5 h8 =>
                  split at h
                  next e heq => exact ParseResult.noConfusion h
                  next exth q6 h9 =>
                    injection h with h
                    rw [Prod.mk.injEq] at h
                    obtain ⟨hg, hq⟩ := h
                    have hgs : g.seq_num = seqn := by rw [← hg]
                    have hgn : g.npdu_num = npdun := by rw [← hg]
                    have hge : g.ext_hdrs = exth := by rw [← hg]
                    obtain ⟨-, -, -, htop⟩ := Parser.parse_u8_ok p top q1 h1
                    obtain ⟨hcs, hcn, hce⟩ := Flags.parse_contains top flags h4
                    have hseq := Flags.parse_seq_num_ok flags q3 q4 seqn h7
                    have hnp := Flags.parse_npdu_ok flags q4 q5 npdun h8
                    have hext := Flags.parse_ext_hdrs_ok flags q5 q6 exth h9
                    subst htop
                    refine ⟨?_, ?_, ?_⟩
                    · rw [hgs, hseq, hcs]
                      exact bne_iff_ne
                    · rw [hgn, hnp, hcn]
                      exact bne_iff_ne
                    · rw [hge, hext, hce]
                      exact bne_iff_ne

/-- Claim C3, witness: `gtp_parse_flag_fidelity` applied to a concrete
buffer whose first octet 0b00110011 sets the sequence-number and N-PDU
flags but not the extension flag. -/
theorem gtp_parse_flag_fidelity_witness :
    ((some (SequenceNumber.mk 14)).isSome = true ↔
      ([51, 0, 0, 1, 0, 0, 0, 14, 0, 5].getD 0 0) &&& 2 ≠ 0) ∧
    ((some (NPduNumber.mk 5)).isSome = true ↔
      ([51, 0, 0, 1, 0, 0, 0, 14, 0, 5].getD 0 0) &&& 1 ≠ 0) ∧
    (([] : List ExtensionHeader) ≠ [] ↔
      ([51, 0, 0, 1, 0, 0, 0, 14, 0, 5].getD 0 0) &&& 4 ≠ 0) :=
  gtp_parse_flag_fidelity ⟨[51, 0, 0, 1, 0, 0, 0, 14, 0, 5], 0⟩
    ⟨[51, 0, 0, 1, 0, 0, 0, 14, 0, 5], 10⟩
    { version := ⟨1⟩, protocol := .Gtp,
      flags := ⟨[.NPduNumber, .SequenceNumber]⟩, length := ⟨0⟩, teid := ⟨1⟩,
      seq_num := some ⟨14⟩, npdu_num := some ⟨5⟩, ext_hdrs := [] }
    (by decide)

/-- Claim C7.  The extension-chain walk terminates on every input: the
fuel-indexed unfolding is stable once the fuel exceeds the remaining byte
count (each step strictly consumes bytes), every successful walk consumes
at least 2 bytes per decoded record while staying inside the buffer, and a
walk that fails does so with `PrematureEnd` (buffer exhausted before the
sentinel) unless it read an unsupported tag byte. -/
theorem ext_chain_termination :
    (∀ (f g : Nat) (kind : ExtHeaderType) (res : List ExtensionHeader)
        (p : Parser),
        p.bytes.length - p.pos < f → p.bytes.length - p.pos < g →
        ExtensionHeader.parseFuel f kind res p =
          ExtensionHeader.parseFuel g kind res p) ∧
    (∀ (p : Parser) (kind : ExtHeaderType) (res out : List ExtensionHeader)
        (p1 : Parser),
        ExtensionHeader.parse p kind res = .ok (out, p1) →
        res.length < out.length ∧
        p.pos + 2 * (out.length - res.length) ≤ p1.pos ∧
        p1.pos ≤ p.bytes.length) ∧
    (∀ (p : Parser) (kind : ExtHeaderType) (res : List ExtensionHeader)
        (e : ParseError),
        ExtensionHeader.parse p kind res = .error e →
        e = .PrematureEnd ∨ ∃ t, e = .UnsupportedExtensionHeader t) :=
  ⟨fun f g kind res p hf hg =>
    ExtensionHeader.parseFuel_stable f g kind res p hf hg,
   fun p kind res out p1 h =>
    (ExtensionHeader.parseFuel_ok_facts _ kind res p out p1 h).elim
      (fun h1 h2 => ⟨h1, h2.2.1, h2.2.2⟩),
   fun p kind res e h =>
    ExtensionHeader.parseFuel_error_kinds _ kind res p e h⟩

/-- Claim C7, witness: `ext_chain_termination` instantiated at concrete
inputs — fuel independence on an empty buffer, the byte count of a
one-record walk over `[64, 0]`, and the `PrematureEnd` failure on the
empty buffer. -/
theorem ext_chain_termination_witness :
    ExtensionHeader.parseFuel 1 .UdpPort [] ⟨[], 0⟩ =
      ExtensionHeader.parseFuel 5 .UdpPort [] ⟨[], 0⟩ ∧
    (([] : List ExtensionHeader).length <
        [ExtensionHeader.mk .UdpPort []].length ∧
      (0 : Nat) + 2 * ([ExtensionHeader.mk .UdpPort []].length -
        ([] : List ExtensionHeader).length) ≤ 2 ∧
      (2 : Nat) ≤ [64, 0].length) ∧
    (ParseError.PrematureEnd = .PrematureEnd ∨
      ∃ t, ParseError.PrematureEnd = .UnsupportedExtensionHeader t) :=
  ⟨ext_chain_termination.1 1 5 .UdpPort [] ⟨[], 0⟩ (by decide) (by decide),
   ext_chain_termination.2.1 ⟨[64, 0], 0⟩ .UdpPort []
     [ExtensionHeader.mk .UdpPort []] ⟨[64, 0], 2⟩ (by decide),
   ext_chain_termination.2.2 ⟨[], 0⟩ .UdpPort [] .PrematureEnd (by decide)⟩

end GtpCrate
